import Mathlib

/-!
Verification of the SGDI file reconciliation and retrieval engine.

Shallow embedding of the relevant parts of the source:
  * `modules/file_auditor/services/file_auditor.py`
    (`parse_reference_list`, `scan_folder`, `audit`),
  * `modules/file_management/services/file_searcher.py`
    (`search_and_copy` and its helpers),
  * `modules/qr_suite/services/qr_reader.py`
    (`_handle_duplicate`, `_get_unique_path`, `process_file`,
    `process_directory`),
  * `core/utils/file_handler.py` (`sanitize_filename`).

Conventions of the embedding:
  * Python strings are Lean `String`s; Python `re.sub(r'\D', '', s)` is
    modelled by filtering on `Char.isDigit` (ASCII digits); Python `\s` and
    `str.strip()` are modelled with `Char.isWhitespace`-based helpers.
  * Python sets are `Finset String`; Python dicts are functions
    `String → Option _` updated left-to-right, so later assignments
    overwrite earlier ones exactly as dict assignment does.
  * The filesystem is a map `Fs := String → Option String` from full path
    to file content.  `shutil.copy2` writes the source content at the
    destination path (overwriting); `shutil.move` additionally removes the
    source path.  Raised exceptions become `Except` values.
  * Directory walks appear as the list of file names (or file records) in
    visit order; the nondeterministic completion order of the thread pool
    (`as_completed`) appears as the order of the per-directory result list;
    the `stop_requested` flag appears as a Boolean predicate polled exactly
    where the source polls the flag.
-/

namespace SGDI

/-! ## Python string primitives

The embedding works on the character lists underlying Lean strings, so
every definition evaluates by kernel reduction on concrete inputs (the
string functions of the Lean standard library are byte-position based
and do not).  ASCII case mapping models the Python behaviour on the
ASCII file names and reference lists this engine handles. -/

/-- `s.lower()` (ASCII). -/
def lowerStr (s : String) : String := ⟨s.data.map Char.toLower⟩

/-- `s.upper()` (ASCII). -/
def upperStr (s : String) : String := ⟨s.data.map Char.toUpper⟩

/-- `s.endswith(suffix)`. -/
def strEndsWith (s sfx : String) : Bool := sfx.data.isSuffixOf s.data

/-- `s.startswith(prefix_)`. -/
def strStartsWith (s pre : String) : Bool := pre.data.isPrefixOf s.data

/-- `s.strip()`: drop surrounding whitespace. -/
def pyStrip (s : String) : String :=
  ⟨((s.data.dropWhile Char.isWhitespace).reverse.dropWhile
      Char.isWhitespace).reverse⟩

/-- Split a character list at every character satisfying `p` (keeping
empty pieces, like `str.split` with an explicit separator). -/
def splitChars (p : Char → Bool) : List Char → List Char → List (List Char)
  | [], acc => [acc.reverse]
  | c :: cs, acc =>
    if p c then acc.reverse :: splitChars p cs []
    else splitChars p cs (c :: acc)

/-- `s.split('\n')`. -/
def splitLines (s : String) : List String :=
  (splitChars (· = '\n') s.data []).map fun l => ⟨l⟩

/-- `s.split()`: split on whitespace runs, dropping empty pieces. -/
def pyWords (s : String) : List String :=
  ((splitChars Char.isWhitespace s.data []).map
    fun l => (⟨l⟩ : String)).filter (· ≠ "")

/-! ## file_auditor.py : parse_reference_list -/

/-- `re.sub(r'\D', '', s)`: keep only the digit characters of `s`. -/
def stripNonDigits (s : String) : String :=
  ⟨s.data.filter Char.isDigit⟩

/-- One step of `re.split(r'\t|\s{2,}', line)`: a single tab is a
delimiter (the `\t` alternative matches first), otherwise a maximal run of
at least two whitespace characters is a delimiter. -/
def pySplitAux : List Char → List Char → List (List Char)
  | [], acc => [acc.reverse]
  | c :: rest, acc =>
    if c = '\t' then acc.reverse :: pySplitAux rest []
    else if c.isWhitespace then
      if 2 ≤ ((c :: rest).takeWhile Char.isWhitespace).length then
        acc.reverse :: pySplitAux ((c :: rest).dropWhile Char.isWhitespace) []
      else pySplitAux rest (c :: acc)
    else pySplitAux rest (c :: acc)
termination_by cs _ => cs.length
decreasing_by
  · simp
  · simp only [List.dropWhile_cons]
    split
    · exact Nat.lt_succ_of_le (List.dropWhile_suffix _).sublist.length_le
    · simp_all
  · simp
  · simp

/-- `re.split(r'\t|\s{2,}', s)`. -/
def pySplitFields (s : String) : List String :=
  (pySplitAux s.data []).map fun l => ⟨l⟩

/-- The fixed header keyword set of `parse_reference_list`. -/
def headerKeywords : List String :=
  ["OC", "ORDEN", "N° DE SUMINISTRO", "SUMINISTRO"]

/-- The per-token metadata record stored in `complete_data`. -/
structure RefData where
  oc : String
  supply : String
  rest : String
deriving DecidableEq, Repr

/-- The body of the `for line in data_lines` loop of
`parse_reference_list`: the token and record contributed by one line, or
`none` when the line is blank, has fewer than two fields, or its supply
field strips to the empty string. -/
def parseLineToken (line : String) : Option (String × RefData) :=
  if pyStrip line = "" then none
  else
    let fields := pySplitFields (pyStrip line)
    if 2 ≤ fields.length then
      let ocRaw := pyStrip (fields.getD 0 "")
      let supplyRaw := pyStrip (fields.getD 1 "")
      let rest :=
        if 2 < fields.length then " ".intercalate (fields.drop 2) else ""
      let supplyNum := stripNonDigits supplyRaw
      if supplyNum = "" then none
      else some (supplyNum, ⟨ocRaw, supplyRaw, rest⟩)
    else none

/-- `lines[0].upper().split()`: upper-case, split on whitespace runs,
dropping empty pieces. -/
def headerTokens (line : String) : List String :=
  pyWords (upperStr line)

/-- One iteration of the accumulation loop of `parse_reference_list`:
`numbers.add(supply_num)` and `complete_data[supply_num] = {...}`. -/
def parseStep (acc : Finset String × (String → Option RefData))
    (line : String) : Finset String × (String → Option RefData) :=
  match parseLineToken line with
  | none => acc
  | some (num, d) =>
    (insert num acc.1, fun x => if x = num then some d else acc.2 x)

/-- `parse_reference_list(text)`: returns the token set `numbers` and the
token-to-record map `complete_data` (later lines overwrite earlier ones,
as dict assignment does). -/
def parseReferenceList (text : String) :
    Finset String × (String → Option RefData) :=
  let lines := splitLines (pyStrip text)
  let dataLines :=
    match lines with
    | [] => lines
    | first :: restLines =>
      if headerKeywords.any (fun h => (headerTokens first).contains h) then
        restLines
      else lines
  dataLines.foldl parseStep (∅, fun _ => none)

/-! ## file_auditor.py : scan_folder -/

/-- `filename.lower().endswith('.pdf')`. -/
def isPdfName (filename : String) : Bool :=
  strEndsWith (lowerStr filename) ".pdf"

/-- Leftmost maximal digit run of a character list, if any. -/
def firstDigitRunAux : List Char → Option (List Char)
  | [] => none
  | c :: rest =>
    if c.isDigit then some (c :: rest.takeWhile Char.isDigit)
    else firstDigitRunAux rest

/-- The default extraction pattern `(\d+)` of `scan_folder`:
`re.search(r'(\d+)', filename)` captures the leftmost maximal digit run. -/
def digitRunExtract (s : String) : Option String :=
  (firstDigitRunAux s.data).map fun l => ⟨l⟩

/-- An alternative caller-supplied extraction pattern, `([A-Z]+)`:
captures the leftmost maximal run of uppercase ASCII letters. -/
def upperRunAux : List Char → Option (List Char)
  | [] => none
  | c :: rest =>
    if c.isUpper then some (c :: rest.takeWhile Char.isUpper)
    else upperRunAux rest

/-- `re.search(r'([A-Z]+)', filename)` as an extraction function. -/
def upperRunExtract (s : String) : Option String :=
  (upperRunAux s.data).map fun l => ⟨l⟩

/-- The per-file body of `scan_folder`: for a `.pdf` file
(case-insensitive) whose name matches the pattern, the digit-stripped
capture is added to `found` (with no emptiness check) and mapped to the
file name in `file_map` (later files overwrite earlier ones). -/
def scanStep (extract : String → Option String)
    (acc : Finset String × (String → Option String)) (filename : String) :
    Finset String × (String → Option String) :=
  if isPdfName filename then
    match extract filename with
    | some captured =>
      let fileId := stripNonDigits captured
      (insert fileId acc.1,
       fun x => if x = fileId then some filename else acc.2 x)
    | none => acc
  else acc

/-- See `scan_folder`: fold the walked file names through `scanStep`. -/
def scanFolder (files : List String)
    (extract : String → Option String) :
    Finset String × (String → Option String) :=
  files.foldl (scanStep extract) (∅, fun _ => none)

/-! ## file_auditor.py : audit (the reconcile step and result assembly) -/

/-- `sorted(reference_numbers.difference(found_numbers))`. -/
def reconcileMissing (r f : Finset String) : List String :=
  (r \ f).sort (· ≤ ·)

/-- `sorted(found_numbers.difference(reference_numbers))`. -/
def reconcileExtra (r f : Finset String) : List String :=
  (f \ r).sort (· ≤ ·)

/-- One entry of the audit `missing` list. -/
structure MissingItem where
  number : String
  oc : String
  supply : String
  rest : String
deriving DecidableEq, Repr

/-- One entry of the audit `extra` list. -/
structure ExtraItem where
  number : String
  filename : String
deriving DecidableEq, Repr

/-- The audit result dictionary (the fields shared by the error and the
success shapes; the error dictionary of the source carries no
`missing_count`/`extra_count` keys, modelled here as zero). -/
structure AuditOut where
  reference_count : Nat
  found_count : Nat
  missing : List MissingItem
  extra : List ExtraItem
  missing_count : Nat
  extra_count : Nat
  status : String
deriving DecidableEq, Repr

/-- The early-return dictionary of `audit` when the reference list yields
no tokens. -/
def auditErrorOut : AuditOut :=
  { reference_count := 0, found_count := 0, missing := [], extra := []
    missing_count := 0, extra_count := 0, status := "error" }

/-- `audit(folder, reference_text, file_pattern)`: parse the reference
list; if it is empty return the error result before any scanning;
otherwise scan and compare. -/
def audit (files : List String) (text : String)
    (extract : String → Option String) : AuditOut :=
  let parsed := parseReferenceList text
  let referenceNumbers := parsed.1
  let referenceData := parsed.2
  if referenceNumbers = ∅ then auditErrorOut
  else
    let scanned := scanFolder files extract
    let foundNumbers := scanned.1
    let fileMap := scanned.2
    let missingList := reconcileMissing referenceNumbers foundNumbers
    let extraList := reconcileExtra referenceNumbers foundNumbers
    { reference_count := referenceNumbers.card
      found_count := foundNumbers.card
      missing := missingList.map fun num =>
        let d := (referenceData num).getD ⟨"", "", ""⟩
        ⟨num, d.oc, d.supply, d.rest⟩
      extra := extraList.map fun num => ⟨num, (fileMap num).getD "N/A"⟩
      missing_count := (referenceNumbers \ foundNumbers).card
      extra_count := (foundNumbers \ referenceNumbers).card
      status :=
        if referenceNumbers \ foundNumbers = ∅ ∧
           foundNumbers \ referenceNumbers = ∅
        then "complete" else "discrepancies" }

/-! ## file_searcher.py : search_and_copy

The filesystem is a map from full path to file content.  Source files are
records carrying their directory, stem, extension (with the dot) and
content; `Path.name` is `stem ++ ext`. -/

/-- Filesystem state: full path to content. -/
def Fs : Type := String → Option String

/-- A physical file discovered during the scan. -/
structure SrcFile where
  dir : String
  stem : String
  ext : String
  content : String
deriving DecidableEq, Repr

/-- `src_path.name`. -/
def SrcFile.name (f : SrcFile) : String := f.stem ++ f.ext

/-- `str(src_path)`. -/
def SrcFile.path (f : SrcFile) : String := f.dir ++ "/" ++ f.name

/-- `_search_in_directory(directory, search_set)`: for each listed item,
for each requested name, a prefix match emits the pair
`(search_name, path)`.  The iteration order of the Python set appears as
the order of the `searchSet` list. -/
def searchInDirectory (searchSet : List String) (items : List SrcFile) :
    List (String × SrcFile) :=
  items.foldl
    (fun acc item =>
      acc ++ (searchSet.filter (fun t => strStartsWith item.name t)).map
        (fun t => (t, item)))
    []

/-- The `as_completed` collection loop of the scan phase: before each
completed future is processed the `stop_requested` flag is polled (with
the number of futures already processed); on stop the loop breaks,
keeping the results collected so far.  Returns
`(stats.searched, merged pair list)`. -/
def scanPhaseAux (stop : Nat → Bool) :
    List (List (String × SrcFile)) → Nat → List (String × SrcFile) →
    Nat × List (String × SrcFile)
  | [], n, acc => (n, acc)
  | r :: rs, n, acc =>
    if stop n then (n, acc)
    else scanPhaseAux stop rs (n + 1) (acc ++ r)

/-- The scan phase over the per-directory results in completion order. -/
def scanPhase (dirResults : List (List (String × SrcFile)))
    (stop : Nat → Bool) : Nat × List (String × SrcFile) :=
  scanPhaseAux stop dirResults 0 []

/-- `found_files`: the dict `{name: [] for name in search_set}` filled by
appending each collected pair, so each token maps to its matches in scan
order and the dict iterates in `searchSet` order. -/
def groupFound (tokens : List String) (pairs : List (String × SrcFile)) :
    List (String × List SrcFile) :=
  tokens.map fun t => (t, (pairs.filter (fun p => p.1 = t)).map Prod.snd)

/-- One entry of `stats["error_details"]`. -/
structure ErrorRec where
  file_name : String
  search_name : String
  error_type : String
  error_message : String
  source_path : String
  destination_path : String
  timestamp : String
deriving DecidableEq, Repr

/-- The `stats` dictionary of `search_and_copy`. -/
structure SearchStats where
  searched : Nat
  found : Nat
  copied : Nat
  errors : Nat
  not_found : List String
  error_details : List ErrorRec
  duplicate_files : List (String × Nat)
deriving DecidableEq, Repr

/-- The initial `stats` dictionary. -/
def initStats : SearchStats :=
  { searched := 0, found := 0, copied := 0, errors := 0
    not_found := [], error_details := [], duplicate_files := [] }

/-- Fixed data of the copy phase: the destination directory, the copy
failure oracle (`some (type, message)` when `shutil.copy2` raises for
that source file and destination name), and the wall-clock timestamp
string. -/
structure CopyEnv where
  destDir : String
  fail : SrcFile → String → Option (String × String)
  now : String

/-- The destination file name chosen for the `idx`-th match of a token:
the original name for the first match, `f"{stem}_copia{idx}{suffix}"`
afterwards. -/
def destFileName (f : SrcFile) (idx : Nat) : String :=
  if idx = 0 then f.name else f.stem ++ "_copia" ++ toString idx ++ f.ext

/-- The structured error record built in the `except` branch of the copy
loop. -/
def mkCopyError (env : CopyEnv) (searchName : String) (f : SrcFile)
    (destName ty msg : String) : ErrorRec :=
  { file_name := f.name, search_name := searchName, error_type := ty
    error_message := msg, source_path := f.path
    destination_path := env.destDir ++ "/" ++ destName
    timestamp := env.now }

/-- Write one path in the filesystem (`shutil.copy2` overwrites). -/
def fsWrite (fs : Fs) (p c : String) : Fs :=
  fun q => if q = p then some c else fs q

/-- The inner `for idx, src_path in enumerate(paths)` loop for a single
token: poll the stop flag, compute the destination name, copy (counting
a success) or record the failure (counting an error) and continue. -/
def copyToken (env : CopyEnv) (stopFlag : Bool) (searchName : String) :
    List (Nat × SrcFile) → SearchStats → Fs → SearchStats × Fs
  | [], st, fs => (st, fs)
  | (idx, f) :: rest, st, fs =>
    if stopFlag then (st, fs)
    else
      let dname := destFileName f idx
      match env.fail f dname with
      | none =>
        copyToken env stopFlag searchName rest
          { st with copied := st.copied + 1 }
          (fsWrite fs (env.destDir ++ "/" ++ dname) f.content)
      | some (ty, msg) =>
        copyToken env stopFlag searchName rest
          { st with errors := st.errors + 1
                    error_details := st.error_details ++
                      [mkCopyError env searchName f dname ty msg] } fs

/-- The outer `for file_name, paths in found_files.items()` loop: tokens
with matches have `found` incremented, a duplicate count recorded when
more than one match exists, and their matches copied; tokens with no
match are appended to `not_found`. -/
def copyGroups (env : CopyEnv) (stopFlag : Bool) :
    List (String × List SrcFile) → SearchStats → Fs → SearchStats × Fs
  | [], st, fs => (st, fs)
  | (nameT, paths) :: rest, st, fs =>
    if paths.isEmpty then
      copyGroups env stopFlag rest
        { st with not_found := st.not_found ++ [nameT] } fs
    else
      let st1 := { st with found := st.found + paths.length }
      let st2 :=
        if 1 < paths.length then
          { st1 with duplicate_files :=
              st1.duplicate_files ++ [(nameT, paths.length)] }
        else st1
      let r := copyToken env stopFlag nameT paths.enum st2 fs
      copyGroups env stopFlag rest r.1 r.2

/-- `search_and_copy`: when the source root does not exist the zeroed
`stats` dictionary is returned at once; otherwise the scan phase runs
(polling the stop flag between completed futures), the collected pairs
are grouped per token, and the serial copy phase runs (polling the stop
flag between files). -/
def searchAndCopy (rootExists : Bool) (tokens : List String)
    (dirResults : List (List (String × SrcFile))) (stop : Nat → Bool)
    (stopCopy : Bool) (env : CopyEnv) (fs : Fs) : SearchStats × Fs :=
  if !rootExists then (initStats, fs)
  else
    let scanned := scanPhase dirResults stop
    let groups := groupFound tokens scanned.2
    copyGroups env stopCopy groups
      { initStats with searched := scanned.1 } fs

/-! ## file_handler.py : sanitize_filename -/

/-- The Windows-invalid characters removed by `sanitize_filename`. -/
def invalidFileChars : List Char :=
  ['<', '>', ':', '"', '/', '\\', '|', '?', '*']

/-- `while filename.endswith('.'): filename = filename[:-1]`. -/
def dropTrailingDots (s : String) : String :=
  ⟨(s.data.reverse.dropWhile (· = '.')).reverse⟩

/-- `sanitize_filename(filename)` with the default replacement: replace
each invalid character by an underscore, strip surrounding whitespace,
drop trailing dots. -/
def sanitizeFilename (s : String) : String :=
  dropTrailingDots
    (pyStrip ⟨s.data.map fun c =>
      if invalidFileChars.contains c then '_' else c⟩)

/-! ## qr_reader.py : _get_unique_path, _handle_duplicate -/

/-- The `N`-th rename candidate `parent / f"{stem}_{counter}{suffix}"`. -/
def uniqueCand (parent stem suffix : String) (n : Nat) : String :=
  parent ++ stem ++ "_" ++ toString n ++ suffix

/-- The `while True` loop of `_get_unique_path`: try
`stem_counter`, `stem_counter+1`, …; after the 1000th failed candidate
(`counter > 1000`) a `RuntimeError` is raised, modelled as
`Except.error`. -/
def getUniquePathAux (ex : String → Bool) (parent stem suffix : String) :
    Nat → Nat → Except String String
  | _, 0 => Except.error "No se pudo generar nombre único"
  | counter, fuel + 1 =>
    if ex (uniqueCand parent stem suffix counter) then
      getUniquePathAux ex parent stem suffix (counter + 1) fuel
    else Except.ok (uniqueCand parent stem suffix counter)

/-- `_get_unique_path(base_path)` over an existence oracle `ex`:
the base path itself when free, otherwise the first free `_N` candidate,
with the 1000-attempt safety bound. -/
def getUniquePath (ex : String → Bool) (parent stem suffix : String) :
    Except String String :=
  if ex (parent ++ stem ++ suffix) then
    getUniquePathAux ex parent stem suffix 1 1000
  else Except.ok (parent ++ stem ++ suffix)

/-- `_handle_duplicate(dest_path, source_path, policy)` over a
filesystem `fs` and a content-hash function `md5`.  The destination path
is `parent ++ stem ++ suffix` (the decomposition `Path.parent`,
`Path.stem`, `Path.suffix` of the source).  Returns the possibly-renamed
destination (`none` meaning skip) together with the filesystem
("sobrescribir" unlinks the existing destination); the rename-candidate
exhaustion of `_get_unique_path` propagates as `Except.error`. -/
def handleDuplicate (md5 : String → String) (fs : Fs)
    (srcPath parent stem suffix : String) (policy : String) :
    Except String (Option String × Fs) :=
  let destPath := parent ++ stem ++ suffix
  if (fs destPath).isNone then Except.ok (some destPath, fs)
  else if policy = "sobrescribir" then
    Except.ok (some destPath, fun q => if q = destPath then none else fs q)
  else if policy = "saltar" then Except.ok (none, fs)
  else if policy = "comparar" then
    let sourceHash := md5 ((fs srcPath).getD "")
    let destHash := md5 ((fs destPath).getD "")
    if sourceHash = destHash then Except.ok (none, fs)
    else
      (getUniquePath (fun p => (fs p).isSome) parent stem suffix).map
        (fun p => (some p, fs))
  else
    (getUniquePath (fun p => (fs p).isSome) parent stem suffix).map
      (fun p => (some p, fs))

/-! ## qr_reader.py : process_file, process_directory -/

/-- `shutil.move(src, dst)`: the content of `src` appears at `dst` and
`src` disappears. -/
def fsMove (fs : Fs) (src dst : String) : Fs :=
  fun q => if q = dst then fs src else if q = src then none else fs q

/-- The `action` field of the `process_file` result dictionary (`noAction`
is the source's `None`, produced by the unsupported-extension return and
by the `except` handler). -/
inductive FileAction
  | renamedAndMoved
  | movedToError
  | skipped
  | noAction
deriving DecidableEq, Repr

/-- A file handed to `process_file`: its path components, content and the
outcome of the QR codec on it (`none` when no QR could be read — the
codec itself is an external collaborator). -/
structure QRFile where
  path : String
  stem : String
  ext : String
  content : String
  qr : Option String
deriving DecidableEq, Repr

/-- The extensions accepted by `process_file` / `process_directory`. -/
def supportedExts : List String :=
  [".pdf", ".png", ".jpg", ".jpeg", ".tiff", ".bmp"]

/-- `process_file(file_path, output_folder, error_folder, …,
duplicate_policy)`: read the QR (given here as `f.qr`); without a QR the
file moves to the error folder (duplicates handled with policy
"saltar" — when the resolver returns `None` the source passes
`str(None)`, the literal path `"None"`, to `shutil.move`); with a QR the
file is renamed to the sanitized content and moved, honouring the
duplicate policy; any raised exception is caught and yields a result
with `action = None` and no move. -/
def processFile (md5 : String → String) (fs : Fs) (f : QRFile)
    (outParent errParent : String) (policy : String) :
    FileAction × Fs :=
  let ext := lowerStr f.ext
  if ¬ (supportedExts.contains ext) then (FileAction.noAction, fs)
  else
    match f.qr with
    | none =>
      match handleDuplicate md5 fs f.path errParent f.stem ext "saltar" with
      | Except.error _ => (FileAction.noAction, fs)
      | Except.ok (destOpt, fs1) =>
        let target := match destOpt with
          | some p => p
          | none => "None"
        (FileAction.movedToError, fsMove fs1 f.path target)
    | some qrContent =>
      let newStem := sanitizeFilename qrContent
      match handleDuplicate md5 fs f.path outParent newStem ext policy with
      | Except.error _ => (FileAction.noAction, fs)
      | Except.ok (none, fs1) => (FileAction.skipped, fs1)
      | Except.ok (some p, fs1) => (FileAction.renamedAndMoved, fsMove fs1 f.path p)

/-- The `stats` dictionary of `process_directory` (the source never
increments `duplicados`). -/
structure QRStats where
  procesados : Nat
  exitosos : Nat
  fallidos : Nat
  sin_qr : Nat
  duplicados : Nat
  saltados : Nat
deriving DecidableEq, Repr

/-- The zero-initialized `process_directory` stats. -/
def initQRStats : QRStats :=
  { procesados := 0, exitosos := 0, fallidos := 0, sin_qr := 0
    duplicados := 0, saltados := 0 }

/-- The per-file stats update of the `process_directory` loop. -/
def tallyAction (st : QRStats) (a : FileAction) : QRStats :=
  let st1 := { st with procesados := st.procesados + 1 }
  match a with
  | FileAction.renamedAndMoved => { st1 with exitosos := st1.exitosos + 1 }
  | FileAction.movedToError => { st1 with sin_qr := st1.sin_qr + 1 }
  | FileAction.skipped => { st1 with saltados := st1.saltados + 1 }
  | FileAction.noAction => { st1 with fallidos := st1.fallidos + 1 }

/-- The `for idx, file_path in enumerate(files, 1)` loop of
`process_directory`: poll `stop_requested`, process one file, tally its
action, continue with the moved filesystem. -/
def processDirectoryAux (md5 : String → String)
    (outParent errParent policy : String) (stop : Nat → Bool) :
    List QRFile → Fs → QRStats → QRStats × Fs
  | [], fs, st => (st, fs)
  | f :: rest, fs, st =>
    if stop st.procesados then (st, fs)
    else
      let r := processFile md5 fs f outParent errParent policy
      processDirectoryAux md5 outParent errParent policy stop rest r.2
        (tallyAction st r.1)

/-- `process_directory`: filter to the supported extensions, return the
zero stats when nothing remains, otherwise run the per-file loop. -/
def processDirectory (md5 : String → String) (files : List QRFile)
    (outParent errParent policy : String) (stop : Nat → Bool) (fs : Fs) :
    QRStats × Fs :=
  let kept := files.filter (fun f => supportedExts.contains (lowerStr f.ext))
  if kept.isEmpty then (initQRStats, fs)
  else processDirectoryAux md5 outParent errParent policy stop kept fs initQRStats

/-! ## Derived descriptions of the copy phase

These definitions restate what the copy phase writes and records, so the
theorems can speak about the whole write sequence at once. -/

/-- Apply a list of `(path, content)` writes in order (later writes
overwrite earlier ones, as `shutil.copy2` does). -/
def applyWrites (fs : Fs) : List (String × String) → Fs
  | [] => fs
  | (p, c) :: ws => applyWrites (fsWrite fs p c) ws

/-- The last write recorded for a path in a write list. -/
def lastWrite : List (String × String) → String → Option String
  | [], _ => none
  | (p, c) :: ws, q =>
    match lastWrite ws q with
    | some c2 => some c2
    | none => if q = p then some c else none

/-- The destination writes performed for one token's enumerated match
list (the matches whose copy does not fail, in scan order). -/
def tokenWrites (env : CopyEnv) (l : List (Nat × SrcFile)) :
    List (String × String) :=
  (l.filter fun p => (env.fail p.2 (destFileName p.2 p.1)).isNone).map
    fun p => (env.destDir ++ "/" ++ destFileName p.2 p.1, p.2.content)

/-- The structured error records produced for one token's enumerated
match list, in scan order. -/
def tokenErrors (env : CopyEnv) (t : String) (l : List (Nat × SrcFile)) :
    List ErrorRec :=
  l.foldr
    (fun p acc =>
      match env.fail p.2 (destFileName p.2 p.1) with
      | some (ty, msg) =>
        mkCopyError env t p.2 (destFileName p.2 p.1) ty msg :: acc
      | none => acc)
    []

/-- All destination writes of the copy phase, group by group. -/
def groupWrites (env : CopyEnv) (groups : List (String × List SrcFile)) :
    List (String × String) :=
  (groups.map fun g => tokenWrites env g.2.enum).flatten

/-- All error records of the copy phase, group by group. -/
def groupErrors (env : CopyEnv) (groups : List (String × List SrcFile)) :
    List ErrorRec :=
  (groups.map fun g => tokenErrors env g.1 g.2.enum).flatten

/-! ## Concrete fixtures used by witnesses and counterexamples -/

/-- A copy environment whose copies always succeed. -/
def envOk : CopyEnv := ⟨"dest", fun _ _ => none, "t0"⟩

/-- The two physical matches of scenario B. -/
def fileA : SrcFile := ⟨"src", "100045_a", ".pdf", "A"⟩

/-- See `fileA`. -/
def fileB : SrcFile := ⟨"src", "100045_b", ".pdf", "B"⟩

/-- A copy environment that fails on the file stem `100045_bad`. -/
def envFail : CopyEnv :=
  ⟨"dest",
   fun f _ => if f.stem = "100045_bad" then
       some ("PermissionError", "denied")
     else none,
   "t0"⟩

/-- A source file whose copies fail under `envFail`. -/
def fileBad : SrcFile := ⟨"src", "100045_bad", ".pdf", "X"⟩

/-- Scenario B: one directory holding `100045_a.pdf` and `100045_b.pdf`,
requested token `100045`, empty destination. -/
def runScenarioB : SearchStats × Fs :=
  searchAndCopy true ["100045"]
    [searchInDirectory ["100045"] [fileA, fileB]]
    (fun _ => false) false envOk (fun _ => none)

/-- One retrieval of `100045_a.pdf` into an empty destination. -/
def runOnceA : SearchStats × Fs :=
  searchAndCopy true ["100045"] [searchInDirectory ["100045"] [fileA]]
    (fun _ => false) false envOk (fun _ => none)

/-- The same retrieval run a second time against the unchanged source
and the destination left by `runOnceA`. -/
def runTwiceA : SearchStats × Fs :=
  searchAndCopy true ["100045"] [searchInDirectory ["100045"] [fileA]]
    (fun _ => false) false envOk runOnceA.2

/-- A trivial content hash (the identity), usable because the resolver
only ever compares hash values for equality. -/
def hashId : String → String := fun s => s

/-- A filesystem holding a destination file `out/doc.pdf` with content
`"OLD"` and a source file `in/doc.pdf` with content `"NEW"`. -/
def fsPair : Fs := fun q =>
  if q = "out/doc.pdf" then some "OLD"
  else if q = "in/doc.pdf" then some "NEW"
  else none

/-- A scanned file whose QR decoded to `TOK`. -/
def qrFileTok : QRFile := ⟨"in/s.pdf", "s", ".pdf", "C", some "TOK"⟩

/-- An existence oracle where the base path and the first rename
candidate are taken. -/
def exTwoTaken : String → Bool := fun p =>
  p = "o/t.pdf" || p = "o/t_1.pdf"

/-! ## Theorems -/

/-- C1: for every reference set `r` and found set `f`, the reconcile step
of `audit` produces `missing = keys(r) \ keys(f)` and
`extra = keys(f) \ keys(r)`; `missing` and `extra` are disjoint;
`missing` together with the matched keys `r ∩ f` equals `keys(r)`;
`extra` together with the matched keys equals `keys(f)`; and both result
lists are sorted ascending by token string.  The embedding is a pure
function, so the operation has no side effects and is deterministic
given deterministic inputs. -/
theorem reconcile_set_algebra (r f : Finset String) :
    (∀ t, t ∈ reconcileMissing r f ↔ t ∈ r ∧ t ∉ f) ∧
    (∀ t, t ∈ reconcileExtra r f ↔ t ∈ f ∧ t ∉ r) ∧
    (∀ t, ¬(t ∈ reconcileMissing r f ∧ t ∈ reconcileExtra r f)) ∧
    (reconcileMissing r f).toFinset ∪ (r ∩ f) = r ∧
    (reconcileExtra r f).toFinset ∪ (r ∩ f) = f ∧
    (reconcileMissing r f).Sorted (· ≤ ·) ∧
    (reconcileExtra r f).Sorted (· ≤ ·) := by
  refine ⟨?_, ?_, ?_, ?_, ?_, ?_, ?_⟩
  · intro t
    simp [reconcileMissing, Finset.mem_sort, Finset.mem_sdiff]
  · intro t
    simp [reconcileExtra, Finset.mem_sort, Finset.mem_sdiff]
  · intro t h
    rcases h with ⟨h1, h2⟩
    simp only [reconcileMissing, reconcileExtra, Finset.mem_sort,
      Finset.mem_sdiff] at h1 h2
    exact h2.2 h1.1
  · rw [reconcileMissing, Finset.sort_toFinset]
    exact Finset.sdiff_union_inter r f
  · rw [reconcileExtra, Finset.sort_toFinset, Finset.inter_comm]
    exact Finset.sdiff_union_inter f r
  · exact Finset.sort_sorted _ _
  · exact Finset.sort_sorted _ _

/-- Witness for C1: the reconcile algebra instantiated at concrete sets. -/
theorem reconcile_set_algebra_inst :
    ("100046" ∈ reconcileMissing {"100045", "100046"} {"100045", "100047"}
      ↔ "100046" ∈ ({"100045", "100046"} : Finset String) ∧
        "100046" ∉ ({"100045", "100047"} : Finset String)) ∧
    (reconcileMissing {"100045", "100046"} {"100045", "100047"}).Sorted
      (· ≤ ·) :=
  ⟨(reconcile_set_algebra _ _).1 "100046",
   (reconcile_set_algebra _ _).2.2.2.2.2.1⟩

/-- A line contributes a token only when its supply field strips to a
non-empty digit string. -/
theorem parseLineToken_nonempty {line num : String} {d : RefData}
    (h : parseLineToken line = some (num, d)) : num ≠ "" := by
  simp only [parseLineToken] at h
  split at h
  · exact absurd h (by simp)
  · split at h
    · split at h
      · exact absurd h (by simp)
      · rename_i hne
        simp only [Option.some.injEq, Prod.mk.injEq] at h
        rw [← h.1]
        exact hne
    · exact absurd h (by simp)

/-- The parse fold never inserts the empty token. -/
theorem parseFold_no_empty (lines : List String)
    (acc : Finset String × (String → Option RefData)) (h : "" ∉ acc.1) :
    "" ∉ (lines.foldl parseStep acc).1 := by
  induction lines generalizing acc with
  | nil => exact h
  | cons l ls ih =>
    simp only [List.foldl_cons]
    apply ih
    unfold parseStep
    cases hp : parseLineToken l with
    | none => exact h
    | some p =>
      obtain ⟨num, d⟩ := p
      simp only [Finset.mem_insert]
      rintro (rfl | hmem)
      · exact parseLineToken_nonempty hp rfl
      · exact h hmem

/-- The leftmost digit run starts with a digit. -/
theorem firstDigitRunAux_shape {cs l : List Char}
    (h : firstDigitRunAux cs = some l) :
    ∃ c rest, l = c :: rest ∧ c.isDigit = true := by
  induction cs with
  | nil => exact absurd h (by simp [firstDigitRunAux])
  | cons c rest ih =>
    unfold firstDigitRunAux at h
    split at h
    · rename_i hd
      simp only [Option.some.injEq] at h
      exact ⟨c, rest.takeWhile Char.isDigit, h.symm, hd⟩
    · exact ih h

/-- A capture of the default `(\d+)` pattern strips to a non-empty
string. -/
theorem digitRunExtract_strips_nonempty {s cap : String}
    (h : digitRunExtract s = some cap) : stripNonDigits cap ≠ "" := by
  unfold digitRunExtract at h
  cases hr : firstDigitRunAux s.data with
  | none => rw [hr] at h; exact absurd h (by simp)
  | some l =>
    rw [hr] at h
    simp only [Option.map_some', Option.some.injEq] at h
    obtain ⟨c, rest, rfl, hd⟩ := firstDigitRunAux_shape hr
    rw [← h]
    unfold stripNonDigits
    intro hcontra
    have : (c :: rest).filter Char.isDigit = [] := by
      have := congrArg String.data hcontra
      simpa using this
    rw [List.filter_cons_of_pos hd] at this
    exact List.cons_ne_nil _ _ this

/-- The scan fold with the default digit pattern never inserts the empty
token. -/
theorem scanFold_digit_no_empty (files : List String)
    (acc : Finset String × (String → Option String)) (h : "" ∉ acc.1) :
    "" ∉ (files.foldl (scanStep digitRunExtract) acc).1 := by
  induction files generalizing acc with
  | nil => exact h
  | cons fn fns ih =>
    simp only [List.foldl_cons]
    apply ih
    unfold scanStep
    split
    · cases hx : digitRunExtract fn with
      | none => exact h
      | some cap =>
        simp only [Finset.mem_insert]
        rintro (hempty | hmem)
        · exact digitRunExtract_strips_nonempty hx hempty.symm
        · exact h hmem
    · exact h

/-- C2 (amended): `parse` never yields an empty-string token, and a scan
with the default `(\d+)` extraction pattern never inserts an empty token
into the found set.  (For an arbitrary caller-supplied pattern the
emptiness check is absent — see the counterexample.) -/
theorem parse_scan_tokens_nonempty :
    (∀ text : String, "" ∉ (parseReferenceList text).1) ∧
    (∀ files : List String, "" ∉ (scanFolder files digitRunExtract).1) := by
  constructor
  · intro text
    unfold parseReferenceList
    apply parseFold_no_empty
    exact Finset.not_mem_empty ""
  · intro files
    unfold scanFolder
    apply scanFold_digit_no_empty
    exact Finset.not_mem_empty ""

/-- Witness for C2: the amended invariant at concrete inputs. -/
theorem parse_scan_tokens_nonempty_inst :
    ("" ∉ (parseReferenceList "OC001\t100045").1) ∧
    ("" ∉ (scanFolder ["100045_report.pdf"] digitRunExtract).1) :=
  ⟨parse_scan_tokens_nonempty.1 "OC001\t100045",
   parse_scan_tokens_nonempty.2 ["100045_report.pdf"]⟩

/-- Counterexample for C2 as stated: with the caller-supplied extraction
pattern `([A-Z]+)` and the file `AB.pdf`, the capture `"AB"` strips to
the empty string, yet the empty string is inserted into the found set —
`scan_folder` has no emptiness check. -/
theorem scan_inserts_empty_token_cex :
    stripNonDigits "AB" = "" ∧
    "" ∈ (scanFolder ["AB.pdf"] upperRunExtract).1 := by
  have hpdf : isPdfName "AB.pdf" = true := by decide
  have hex : upperRunExtract "AB.pdf" = some "AB" := by decide
  have hstrip : stripNonDigits "AB" = "" := rfl
  refine ⟨hstrip, ?_⟩
  simp only [scanFolder, List.foldl_cons, List.foldl_nil, scanStep, hpdf,
    if_true, hex, hstrip]
  exact Finset.mem_insert_self "" ∅

/-- A non-`.pdf` file contributes nothing to the scan fold. -/
theorem scanStep_non_pdf (extract : String → Option String)
    (acc : Finset String × (String → Option String)) (fn : String)
    (h : isPdfName fn = false) : scanStep extract acc fn = acc := by
  unfold scanStep
  rw [h]
  simp

/-- The scan fold only looks at `.pdf` files. -/
theorem scanFold_filter_pdf (extract : String → Option String) :
    ∀ (files : List String) (acc : Finset String × (String → Option String)),
      files.foldl (scanStep extract) acc =
        (files.filter isPdfName).foldl (scanStep extract) acc := by
  intro files
  induction files with
  | nil => intro acc; rfl
  | cons fn fns ih =>
    intro acc
    by_cases h : isPdfName fn = true
    · simp only [List.filter_cons, h, if_true, List.foldl_cons]
      exact ih _
    · have hf : isPdfName fn = false := by
        cases hv : isPdfName fn
        · rfl
        · exact absurd hv h
      simp only [List.filter_cons, hf, Bool.false_eq_true, if_false,
        List.foldl_cons, scanStep_non_pdf extract acc fn hf]
      exact ih _

/-- C10: only files whose names end with `.pdf` (case-insensitively) are
considered by the audit scan: the scan of any walked file list equals the
scan of its `.pdf`-only sublist, so a file with any other extension never
contributes a token to the found set, and the whole audit result
(in particular its `extra` list and its `missing` list) is unchanged by
deleting the non-`.pdf` files. -/
theorem scan_considers_only_pdf (files : List String)
    (extract : String → Option String) :
    scanFolder files extract =
      scanFolder (files.filter isPdfName) extract ∧
    ∀ text, audit files text extract =
      audit (files.filter isPdfName) text extract := by
  have hscan : scanFolder files extract =
      scanFolder (files.filter isPdfName) extract :=
    scanFold_filter_pdf extract files _
  refine ⟨hscan, ?_⟩
  intro text
  unfold audit
  rw [hscan]

/-- Witness for C10: a `.txt` file never reaches the found set. -/
theorem scan_considers_only_pdf_inst :
    scanFolder ["100045_a.pdf", "notes.txt"] digitRunExtract =
      scanFolder (["100045_a.pdf", "notes.txt"].filter isPdfName)
        digitRunExtract :=
  (scan_considers_only_pdf ["100045_a.pdf", "notes.txt"] digitRunExtract).1

/-- Writes compose by appending write lists. -/
theorem applyWrites_append (a b : List (String × String)) :
    ∀ fs : Fs, applyWrites fs (a ++ b) = applyWrites (applyWrites fs a) b := by
  induction a with
  | nil => intro fs; rfl
  | cons w ws ih =>
    intro fs
    obtain ⟨p, c⟩ := w
    simp only [List.cons_append, applyWrites]
    exact ih _

/-- Looking up a path after a write list: the last write wins, otherwise
the original filesystem answers. -/
theorem applyWrites_lookup (ws : List (String × String)) :
    ∀ (fs : Fs) (q : String),
      applyWrites fs ws q =
        (match lastWrite ws q with
         | some c => some c
         | none => fs q) := by
  induction ws with
  | nil => intro fs q; rfl
  | cons w rest ih =>
    intro fs q
    obtain ⟨p, c⟩ := w
    simp only [applyWrites, lastWrite]
    rw [ih]
    cases lastWrite rest q with
    | some c2 => rfl
    | none =>
      by_cases hq : q = p
      · simp [fsWrite, hq]
      · simp [fsWrite, hq]

/-- Replaying the same write list a second time changes nothing. -/
theorem applyWrites_idem (ws : List (String × String)) (fs : Fs) :
    applyWrites (applyWrites fs ws) ws = applyWrites fs ws := by
  funext q
  rw [applyWrites_lookup, applyWrites_lookup]
  cases lastWrite ws q with
  | some c => rfl
  | none => rfl

/-- Full description of the inner copy loop for one token (no
cancellation): successes are counted and written in scan order, failures
are counted and recorded in scan order, and no other statistics field
moves. -/
theorem copyToken_spec (env : CopyEnv) (t : String) :
    ∀ (l : List (Nat × SrcFile)) (st : SearchStats) (fs : Fs),
      (copyToken env false t l st fs).1.copied =
          st.copied + (l.filter fun p =>
            (env.fail p.2 (destFileName p.2 p.1)).isNone).length ∧
      (copyToken env false t l st fs).1.errors =
          st.errors + (l.filter fun p =>
            (env.fail p.2 (destFileName p.2 p.1)).isSome).length ∧
      (copyToken env false t l st fs).1.error_details =
          st.error_details ++ tokenErrors env t l ∧
      (copyToken env false t l st fs).1.found = st.found ∧
      (copyToken env false t l st fs).1.not_found = st.not_found ∧
      (copyToken env false t l st fs).1.duplicate_files =
          st.duplicate_files ∧
      (copyToken env false t l st fs).1.searched = st.searched ∧
      (copyToken env false t l st fs).2 =
          applyWrites fs (tokenWrites env l) := by
  intro l
  induction l with
  | nil =>
    intro st fs
    refine ⟨?_, ?_, ?_, rfl, rfl, rfl, rfl, ?_⟩ <;>
      simp [copyToken, tokenWrites, tokenErrors, applyWrites]
  | cons hd rest ih =>
    intro st fs
    obtain ⟨idx, f⟩ := hd
    cases hf : env.fail f (destFileName f idx) with
    | none =>
      have heq : copyToken env false t ((idx, f) :: rest) st fs =
          copyToken env false t rest { st with copied := st.copied + 1 }
            (fsWrite fs (env.destDir ++ "/" ++ destFileName f idx)
              f.content) := by
        simp [copyToken, hf]
      obtain ⟨h1, h2, h3, h4, h5, h6, h7, h8⟩ :=
        ih { st with copied := st.copied + 1 }
          (fsWrite fs (env.destDir ++ "/" ++ destFileName f idx) f.content)
      rw [heq]
      refine ⟨?_, ?_, ?_, ?_, ?_, ?_, ?_, ?_⟩
      · rw [h1]; simp [List.filter_cons, hf]; omega
      · rw [h2]; simp [List.filter_cons, hf]
      · rw [h3]; simp [tokenErrors, hf]
      · exact h4
      · exact h5
      · exact h6
      · exact h7
      · rw [h8]; simp [tokenWrites, List.filter_cons, hf, applyWrites]
    | some pr =>
      obtain ⟨ty, msg⟩ := pr
      have heq : copyToken env false t ((idx, f) :: rest) st fs =
          copyToken env false t rest
            { st with errors := st.errors + 1
                      error_details := st.error_details ++
                        [mkCopyError env t f (destFileName f idx) ty msg] }
            fs := by
        simp [copyToken, hf]
      obtain ⟨h1, h2, h3, h4, h5, h6, h7, h8⟩ :=
        ih { st with errors := st.errors + 1
                     error_details := st.error_details ++
                       [mkCopyError env t f (destFileName f idx) ty msg] } fs
      rw [heq]
      refine ⟨?_, ?_, ?_, ?_, ?_, ?_, ?_, ?_⟩
      · rw [h1]; simp [List.filter_cons, hf]
      · rw [h2]; simp [List.filter_cons, hf]; omega
      · rw [h3]; simp [tokenErrors, hf]
      · exact h4
      · exact h5
      · exact h6
      · exact h7
      · rw [h8]; simp [tokenWrites, List.filter_cons, hf]

/-- With the stop flag raised, the inner copy loop does nothing. -/
theorem copyToken_stop (env : CopyEnv) (t : String)
    (l : List (Nat × SrcFile)) (st : SearchStats) (fs : Fs) :
    copyToken env true t l st fs = (st, fs) := by
  cases l with
  | nil => rfl
  | cons hd rest => obtain ⟨idx, f⟩ := hd; simp [copyToken]

/-- One error record is produced per failing copy attempt. -/
theorem tokenErrors_length (env : CopyEnv) (t : String) :
    ∀ l : List (Nat × SrcFile),
      (tokenErrors env t l).length = (l.filter fun p =>
        (env.fail p.2 (destFileName p.2 p.1)).isSome).length := by
  intro l
  induction l with
  | nil => rfl
  | cons p rest ih =>
    cases hf : env.fail p.2 (destFileName p.2 p.1) with
    | none => simp [tokenErrors, List.filter_cons, hf] at ih ⊢; exact ih
    | some pr =>
      obtain ⟨ty, msg⟩ := pr
      simp [tokenErrors, List.filter_cons, hf] at ih ⊢
      exact ih

/-- Full description of the copy phase (no cancellation): per token,
matches are counted into `found`, multiplicities above one are recorded
in `duplicate_files`, unmatched tokens land in `not_found`, successful
copies land in the filesystem in scan order, and failures land in
`error_details`. -/
theorem copyGroups_spec (env : CopyEnv) :
    ∀ (gs : List (String × List SrcFile)) (st : SearchStats) (fs : Fs),
      (copyGroups env false gs st fs).1.copied =
          st.copied + (groupWrites env gs).length ∧
      (copyGroups env false gs st fs).1.errors =
          st.errors + (groupErrors env gs).length ∧
      (copyGroups env false gs st fs).1.error_details =
          st.error_details ++ groupErrors env gs ∧
      (copyGroups env false gs st fs).1.found =
          st.found + (gs.map fun g => g.2.length).sum ∧
      (copyGroups env false gs st fs).1.not_found =
          st.not_found ++ (gs.filter fun g => g.2.isEmpty).map
            (fun g => g.1) ∧
      (copyGroups env false gs st fs).1.duplicate_files =
          st.duplicate_files ++ (gs.filter fun g =>
            decide (1 < g.2.length)).map (fun g => (g.1, g.2.length)) ∧
      (copyGroups env false gs st fs).1.searched = st.searched ∧
      (copyGroups env false gs st fs).2 =
          applyWrites fs (groupWrites env gs) := by
  intro gs
  induction gs with
  | nil =>
    intro st fs
    refine ⟨?_, ?_, ?_, ?_, ?_, ?_, rfl, ?_⟩ <;>
      simp [copyGroups, groupWrites, groupErrors, applyWrites]
  | cons g rest ih =>
    intro st fs
    obtain ⟨nameT, paths⟩ := g
    by_cases hemp : paths.isEmpty
    · have hnil : paths = [] := List.isEmpty_iff.mp hemp
      subst hnil
      have heq : copyGroups env false ((nameT, ([] : List SrcFile)) :: rest)
          st fs = copyGroups env false rest
            { st with not_found := st.not_found ++ [nameT] } fs := by
        simp [copyGroups]
      obtain ⟨h1, h2, h3, h4, h5, h6, h7, h8⟩ :=
        ih { st with not_found := st.not_found ++ [nameT] } fs
      rw [heq]
      refine ⟨?_, ?_, ?_, ?_, ?_, ?_, ?_, ?_⟩
      · rw [h1]; simp [groupWrites, tokenWrites]
      · rw [h2]; simp [groupErrors, tokenErrors]
      · rw [h3]; simp [groupErrors, tokenErrors]
      · rw [h4]; simp
      · rw [h5]; simp
      · rw [h6]; simp
      · exact h7
      · rw [h8]; simp [groupWrites, tokenWrites]
    · have hne : paths.isEmpty = false := by
        cases hv : paths.isEmpty
        · rfl
        · exact absurd hv hemp
      have hgw : groupWrites env ((nameT, paths) :: rest) =
          tokenWrites env paths.enum ++ groupWrites env rest := by
        simp [groupWrites]
      have hge : groupErrors env ((nameT, paths) :: rest) =
          tokenErrors env nameT paths.enum ++ groupErrors env rest := by
        simp [groupErrors]
      have htw : (tokenWrites env paths.enum).length =
          (paths.enum.filter fun p =>
            (env.fail p.2 (destFileName p.2 p.1)).isNone).length := by
        simp [tokenWrites]
      have hte : (tokenErrors env nameT paths.enum).length =
          (paths.enum.filter fun p =>
            (env.fail p.2 (destFileName p.2 p.1)).isSome).length :=
        tokenErrors_length env nameT paths.enum
      by_cases hdup : 1 < paths.length
      · have heq : copyGroups env false ((nameT, paths) :: rest) st fs =
            copyGroups env false rest
              (copyToken env false nameT paths.enum
                { st with found := st.found + paths.length
                          duplicate_files := st.duplicate_files ++
                            [(nameT, paths.length)] } fs).1
              (copyToken env false nameT paths.enum
                { st with found := st.found + paths.length
                          duplicate_files := st.duplicate_files ++
                            [(nameT, paths.length)] } fs).2 := by
          simp [copyGroups, hne, hdup]
        obtain ⟨c1, c2, c3, c4, c5, c6, c7, c8⟩ :=
          copyToken_spec env nameT paths.enum
            { st with found := st.found + paths.length
                      duplicate_files := st.duplicate_files ++
                        [(nameT, paths.length)] } fs
        obtain ⟨h1, h2, h3, h4, h5, h6, h7, h8⟩ := ih
          (copyToken env false nameT paths.enum
            { st with found := st.found + paths.length
                      duplicate_files := st.duplicate_files ++
                        [(nameT, paths.length)] } fs).1
          (copyToken env false nameT paths.enum
            { st with found := st.found + paths.length
                      duplicate_files := st.duplicate_files ++
                        [(nameT, paths.length)] } fs).2
        rw [heq]
        refine ⟨?_, ?_, ?_, ?_, ?_, ?_, ?_, ?_⟩
        · rw [h1, c1, hgw]
          dsimp only
          rw [List.length_append, htw]
          omega
        · rw [h2, c2, hge]
          dsimp only
          rw [List.length_append, hte]
          omega
        · rw [h3, c3, hge]
          dsimp only
          rw [List.append_assoc]
        · rw [h4, c4]
          dsimp only
          simp only [List.map_cons, List.sum_cons]
          omega
        · rw [h5, c5]
          dsimp only
          simp [hne]
        · rw [h6, c6]
          dsimp only
          simp [hdup, List.append_assoc]
        · rw [h7, c7]
        · rw [h8, c8, hgw, applyWrites_append]
      · have heq : copyGroups env false ((nameT, paths) :: rest) st fs =
            copyGroups env false rest
              (copyToken env false nameT paths.enum
                { st with found := st.found + paths.length } fs).1
              (copyToken env false nameT paths.enum
                { st with found := st.found + paths.length } fs).2 := by
          simp [copyGroups, hne, hdup]
        obtain ⟨c1, c2, c3, c4, c5, c6, c7, c8⟩ :=
          copyToken_spec env nameT paths.enum
            { st with found := st.found + paths.length } fs
        obtain ⟨h1, h2, h3, h4, h5, h6, h7, h8⟩ := ih
          (copyToken env false nameT paths.enum
            { st with found := st.found + paths.length } fs).1
          (copyToken env false nameT paths.enum
            { st with found := st.found + paths.length } fs).2
        rw [heq]
        refine ⟨?_, ?_, ?_, ?_, ?_, ?_, ?_, ?_⟩
        · rw [h1, c1, hgw]
          dsimp only
          rw [List.length_append, htw]
          omega
        · rw [h2, c2, hge]
          dsimp only
          rw [List.length_append, hte]
          omega
        · rw [h3, c3, hge]
          dsimp only
          rw [List.append_assoc]
        · rw [h4, c4]
          dsimp only
          simp only [List.map_cons, List.sum_cons]
          omega
        · rw [h5, c5]
          dsimp only
          simp [hne]
        · rw [h6, c6]
          dsimp only
          simp [hdup]
        · rw [h7, c7]
        · rw [h8, c8, hgw, applyWrites_append]

/-- With the stop flag raised, the copy phase copies nothing and leaves
the filesystem untouched, but still fills `found`, `duplicate_files` and
`not_found` from the collected results. -/
theorem copyGroups_stop_spec (env : CopyEnv) :
    ∀ (gs : List (String × List SrcFile)) (st : SearchStats) (fs : Fs),
      (copyGroups env true gs st fs).1.copied = st.copied ∧
      (copyGroups env true gs st fs).1.errors = st.errors ∧
      (copyGroups env true gs st fs).1.error_details = st.error_details ∧
      (copyGroups env true gs st fs).1.found =
          st.found + (gs.map fun g => g.2.length).sum ∧
      (copyGroups env true gs st fs).1.not_found =
          st.not_found ++ (gs.filter fun g => g.2.isEmpty).map
            (fun g => g.1) ∧
      (copyGroups env true gs st fs).1.searched = st.searched ∧
      (copyGroups env true gs st fs).2 = fs := by
  intro gs
  induction gs with
  | nil =>
    intro st fs
    refine ⟨rfl, rfl, rfl, ?_, ?_, rfl, rfl⟩ <;> simp [copyGroups]
  | cons g rest ih =>
    intro st fs
    obtain ⟨nameT, paths⟩ := g
    by_cases hemp : paths.isEmpty
    · have hnil : paths = [] := List.isEmpty_iff.mp hemp
      subst hnil
      have heq : copyGroups env true ((nameT, ([] : List SrcFile)) :: rest)
          st fs = copyGroups env true rest
            { st with not_found := st.not_found ++ [nameT] } fs := by
        simp [copyGroups]
      obtain ⟨h1, h2, h3, h4, h5, h6, h7⟩ :=
        ih { st with not_found := st.not_found ++ [nameT] } fs
      rw [heq]
      refine ⟨h1, h2, h3, ?_, ?_, h6, h7⟩
      · rw [h4]; simp
      · rw [h5]; simp
    · have hne : paths.isEmpty = false := by
        cases hv : paths.isEmpty
        · rfl
        · exact absurd hv hemp
      by_cases hdup : 1 < paths.length
      · have heq : copyGroups env true ((nameT, paths) :: rest) st fs =
            copyGroups env true rest
              { st with found := st.found + paths.length
                        duplicate_files := st.duplicate_files ++
                          [(nameT, paths.length)] } fs := by
          simp [copyGroups, hne, hdup, copyToken_stop]
        obtain ⟨h1, h2, h3, h4, h5, h6, h7⟩ :=
          ih { st with found := st.found + paths.length
                       duplicate_files := st.duplicate_files ++
                         [(nameT, paths.length)] } fs
        rw [heq]
        refine ⟨h1, h2, h3, ?_, ?_, h6, h7⟩
        · rw [h4]; simp; omega
        · rw [h5]; simp [hne]
      · have heq : copyGroups env true ((nameT, paths) :: rest) st fs =
            copyGroups env true rest
              { st with found := st.found + paths.length } fs := by
          simp [copyGroups, hne, hdup, copyToken_stop]
        obtain ⟨h1, h2, h3, h4, h5, h6, h7⟩ :=
          ih { st with found := st.found + paths.length } fs
        rw [heq]
        refine ⟨h1, h2, h3, ?_, ?_, h6, h7⟩
        · rw [h4]; simp; omega
        · rw [h5]; simp [hne]

/-- The `as_completed` loop with a flag that turns true once `k` futures
have been processed: exactly `min k total` futures are processed and the
results of exactly those futures are kept. -/
theorem scanPhaseAux_threshold (k : Nat) :
    ∀ (rs : List (List (String × SrcFile))) (n : Nat)
      (acc : List (String × SrcFile)), n ≤ k →
      scanPhaseAux (fun m => decide (k ≤ m)) rs n acc =
        (min k (n + rs.length), acc ++ (rs.take (k - n)).flatten) := by
  intro rs
  induction rs with
  | nil =>
    intro n acc h
    simp [scanPhaseAux, Nat.min_eq_right h]
  | cons r rest ih =>
    intro n acc h
    by_cases hstop : k ≤ n
    · have hn : n = k := Nat.le_antisymm h hstop
      subst hn
      have hdec : (decide (n ≤ n)) = true := by simp
      simp [scanPhaseAux, hdec, Nat.min_eq_left (Nat.le_add_right n _)]
    · have hlt : n < k := Nat.lt_of_not_le hstop
      have hdec : (decide (k ≤ n)) = false := by simp [hstop]
      rw [scanPhaseAux, hdec]
      simp only [Bool.false_eq_true, if_false]
      rw [ih (n + 1) (acc ++ r) hlt]
      have h1 : n + 1 + rest.length = n + (r :: rest).length := by
        simp [List.length_cons]; omega
      have h2 : k - n = (k - (n + 1)) + 1 := by omega
      rw [h1, h2, List.take_succ_cons, List.flatten_cons,
        List.append_assoc]

/-- Two statistics records with equal fields are equal. -/
theorem searchStatsExt {a b : SearchStats}
    (h1 : a.searched = b.searched) (h2 : a.found = b.found)
    (h3 : a.copied = b.copied) (h4 : a.errors = b.errors)
    (h5 : a.not_found = b.not_found)
    (h6 : a.error_details = b.error_details)
    (h7 : a.duplicate_files = b.duplicate_files) : a = b := by
  cases a
  cases b
  simp_all

/-- The statistics of the copy phase do not depend on the starting
filesystem. -/
theorem copyGroups_stats_fs_indep (env : CopyEnv)
    (gs : List (String × List SrcFile)) (st : SearchStats)
    (fs fs2 : Fs) :
    (copyGroups env false gs st fs).1 = (copyGroups env false gs st fs2).1 := by
  obtain ⟨a1, a2, a3, a4, a5, a6, a7, _⟩ := copyGroups_spec env gs st fs
  obtain ⟨b1, b2, b3, b4, b5, b6, b7, _⟩ := copyGroups_spec env gs st fs2
  exact searchStatsExt (a7.trans b7.symm) (a4.trans b4.symm)
    (a1.trans b1.symm) (a2.trans b2.symm) (a5.trans b5.symm)
    (a3.trans b3.symm) (a6.trans b6.symm)

/-- C3 (amended): for every token with `N ≥ 1` matches the matches are
copied in scan order; the first copy keeps the original filename and the
`K`-th subsequent copy (`K = 1..N-1`) is written under the name
`stem ++ "_copia" ++ K ++ ext` — the source uses the Spanish suffix
`_copiaK`, not `_copyK`; when `N > 1` the token is recorded in
`duplicate_files` with count `N`.  In scenario B the destination gains
`100045_a.pdf` and `100045_b_copia1.pdf`, and
`duplicate_files["100045"] = 2`. -/
theorem duplicates_copied_in_order_with_copia_suffix (env : CopyEnv)
    (t : String) (paths : List SrcFile) (st : SearchStats) (fs : Fs)
    (f : SrcFile) (k : Nat) :
    destFileName f 0 = f.name ∧
    (0 < k → destFileName f k =
      f.stem ++ "_copia" ++ toString k ++ f.ext) ∧
    (copyGroups env false [(t, paths)] st fs).2 =
      applyWrites fs (tokenWrites env paths.enum) ∧
    (1 < paths.length →
      (copyGroups env false [(t, paths)] st fs).1.duplicate_files =
        st.duplicate_files ++ [(t, paths.length)]) := by
  refine ⟨?_, ?_, ?_, ?_⟩
  · simp [destFileName, SrcFile.name]
  · intro hk
    have hkne : k ≠ 0 := Nat.pos_iff_ne_zero.mp hk
    simp [destFileName, hkne]
  · obtain ⟨_, _, _, _, _, _, _, h8⟩ := copyGroups_spec env [(t, paths)] st fs
    rw [h8]
    simp [groupWrites]
  · intro hdup
    obtain ⟨_, _, _, _, _, h6, _, _⟩ := copyGroups_spec env [(t, paths)] st fs
    rw [h6]
    simp [hdup]

/-- Witness for C3 (amended), at scenario B's inputs. -/
theorem duplicates_copia_suffix_witness :
    (0 < 1 ∧ 1 < [fileA, fileB].length) ∧
    destFileName fileB 1 =
      fileB.stem ++ "_copia" ++ toString 1 ++ fileB.ext ∧
    (copyGroups envOk false [("100045", [fileA, fileB])] initStats
        (fun _ => none)).1.duplicate_files =
      initStats.duplicate_files ++ [("100045", [fileA, fileB].length)] :=
  ⟨⟨by decide, by decide⟩,
   (duplicates_copied_in_order_with_copia_suffix envOk "100045"
      [fileA, fileB] initStats (fun _ => none) fileB 1).2.1 (by decide),
   (duplicates_copied_in_order_with_copia_suffix envOk "100045"
      [fileA, fileB] initStats (fun _ => none) fileB 1).2.2.2 (by decide)⟩

/-- Counterexample for C3 as stated: in scenario B the second copy is
written as `100045_b_copia1.pdf`; the claimed `_copy1`-suffixed names do
not exist in the destination, and the name actually produced does not
end in `_copy1.pdf`. -/
theorem copy_suffix_not_copy1_cex :
    runScenarioB.1.duplicate_files = [("100045", 2)] ∧
    runScenarioB.1.copied = 2 ∧
    runScenarioB.2 "dest/100045_a.pdf" = some "A" ∧
    runScenarioB.2 "dest/100045_b_copia1.pdf" = some "B" ∧
    runScenarioB.2 "dest/100045_b_copy1.pdf" = none ∧
    runScenarioB.2 "dest/100045_copy1.pdf" = none ∧
    strEndsWith "100045_b_copia1.pdf" "_copy1.pdf" = false := by
  refine ⟨?_, ?_, ?_, ?_, ?_, ?_, ?_⟩ <;> decide

/-- C4 (amended): `search_and_copy` has no duplicate policy and no
skipped-duplicate reporting; a second run against an unchanged source
re-copies every found file — its statistics equal the first run's (same
nonzero `copied` count) — while the destination contents are unchanged,
because `copy2` overwrites each destination with identical content. -/
theorem second_run_same_stats_and_fs (tokens : List String)
    (dirResults : List (List (String × SrcFile))) (env : CopyEnv)
    (fs : Fs) :
    (searchAndCopy true tokens dirResults (fun _ => false) false env
        (searchAndCopy true tokens dirResults (fun _ => false) false env
          fs).2).1 =
      (searchAndCopy true tokens dirResults (fun _ => false) false env
        fs).1 ∧
    (searchAndCopy true tokens dirResults (fun _ => false) false env
        (searchAndCopy true tokens dirResults (fun _ => false) false env
          fs).2).2 =
      (searchAndCopy true tokens dirResults (fun _ => false) false env
        fs).2 := by
  have hunf : ∀ g : Fs,
      searchAndCopy true tokens dirResults (fun _ => false) false env g =
        copyGroups env false
          (groupFound tokens (scanPhase dirResults (fun _ => false)).2)
          { initStats with
              searched := (scanPhase dirResults (fun _ => false)).1 } g :=
    fun g => rfl
  constructor
  · simp only [hunf]
    exact copyGroups_stats_fs_indep env _ _ _ _
  · simp only [hunf]
    have h1 := (copyGroups_spec env
      (groupFound tokens (scanPhase dirResults (fun _ => false)).2)
      { initStats with
          searched := (scanPhase dirResults (fun _ => false)).1 }
      fs).2.2.2.2.2.2.2
    have h2 := (copyGroups_spec env
      (groupFound tokens (scanPhase dirResults (fun _ => false)).2)
      { initStats with
          searched := (scanPhase dirResults (fun _ => false)).1 }
      (copyGroups env false
        (groupFound tokens (scanPhase dirResults (fun _ => false)).2)
        { initStats with
            searched := (scanPhase dirResults (fun _ => false)).1 }
        fs).2).2.2.2.2.2.2.2
    rw [h2, h1, applyWrites_idem]

/-- Witness for C4 (amended): the second concrete run reports the same
statistics as the first. -/
theorem second_run_same_stats_inst : runTwiceA.1 = runOnceA.1 :=
  (second_run_same_stats_and_fs ["100045"]
    [searchInDirectory ["100045"] [fileA]] envOk (fun _ => none)).1

/-- Counterexample for C4 as stated: the second run against the
unchanged source copies one file again — not zero — and nothing is
reported as skipped-duplicate (no such field exists in the statistics). -/
theorem second_run_copies_again_cex :
    runOnceA.1.copied = 1 ∧ runTwiceA.1.copied = 1 ∧
    runTwiceA.1.copied ≠ 0 := by
  refine ⟨?_, ?_, ?_⟩ <;> decide

/-- C5 (amended): an empty reference token set makes `audit` return the
failed result (`status = "error"`) immediately, before and independently
of any scanning; a nonexistent root makes `search_and_copy` return
immediately before any scanning — but that early return is the
zero-initialized statistics object with `errors = 0`, carrying no
failure marker (see the counterexample). -/
theorem config_errors_return_early :
    (∀ (text : String) (files : List String)
        (extract : String → Option String),
      (parseReferenceList text).1 = ∅ →
        audit files text extract = auditErrorOut) ∧
    (∀ (tokens : List String)
        (dirResults : List (List (String × SrcFile)))
        (stop : Nat → Bool) (stopCopy : Bool) (env : CopyEnv) (fs : Fs),
      searchAndCopy false tokens dirResults stop stopCopy env fs =
        (initStats, fs)) := by
  constructor
  · intro text files extract h
    unfold audit
    simp [h]
  · intro tokens dirResults stop stopCopy env fs
    rfl

/-- Witness for C5 (amended): empty reference text and a nonexistent
root, at concrete inputs. -/
theorem config_errors_return_early_witness :
    ((parseReferenceList "").1 = ∅) ∧
    audit ["100045_a.pdf"] "" digitRunExtract = auditErrorOut ∧
    searchAndCopy false ["100045"] [] (fun _ => false) false envOk
      (fun _ => none) = (initStats, fun _ => none) :=
  ⟨rfl,
   config_errors_return_early.1 "" ["100045_a.pdf"] digitRunExtract rfl,
   config_errors_return_early.2 ["100045"] [] (fun _ => false) false envOk
     (fun _ => none)⟩

/-- Counterexample for the nonexistent-root half of C5 as stated: the
early return of `search_and_copy` is the all-zero initial statistics
object — byte-identical to what a successful run over an empty directory
set returns — with `errors = 0` and no failure indication of any kind,
so the caller does not see a failed operation. -/
theorem missing_root_no_failure_marker_cex :
    (searchAndCopy false ["100045"]
        [searchInDirectory ["100045"] [fileA]] (fun _ => false) false
        envOk (fun _ => none)).1 = initStats ∧
    (searchAndCopy true [] [] (fun _ => false) false envOk
        (fun _ => none)).1 = initStats ∧
    initStats.errors = 0 := by
  refine ⟨?_, ?_, rfl⟩ <;> rfl

/-- Copies split into successes and failures. -/
theorem filter_fail_split (env : CopyEnv) :
    ∀ l : List (Nat × SrcFile),
      (l.filter fun p =>
        (env.fail p.2 (destFileName p.2 p.1)).isNone).length +
      (l.filter fun p =>
        (env.fail p.2 (destFileName p.2 p.1)).isSome).length = l.length := by
  intro l
  induction l with
  | nil => rfl
  | cons p rest ih =>
    cases hf : env.fail p.2 (destFileName p.2 p.1) <;>
      simp [List.filter_cons, hf] <;> omega

/-- C6: every per-file copy failure increments `errors`, appends a
structured error record — file name, searched token, error kind and
message, source path, destination path, timestamp, see `mkCopyError` and
`tokenErrors` — and the loop continues to the next file
(`copied + errors` accounts for every single match); the retrieval as a
whole always returns the complete statistics object, whose
`error_details` retains every failure of the run and whose `errors` field
counts them. -/
theorem copy_failures_counted_batch_continues (env : CopyEnv) (t : String)
    (l : List (Nat × SrcFile)) (st : SearchStats) (fs : Fs)
    (tokens : List String) (dirResults : List (List (String × SrcFile)))
    (stop : Nat → Bool) :
    (copyToken env false t l st fs).1.errors =
        st.errors + (l.filter fun p =>
          (env.fail p.2 (destFileName p.2 p.1)).isSome).length ∧
    (copyToken env false t l st fs).1.error_details =
        st.error_details ++ tokenErrors env t l ∧
    (copyToken env false t l st fs).1.copied +
        (copyToken env false t l st fs).1.errors =
      st.copied + st.errors + l.length ∧
    (searchAndCopy true tokens dirResults stop false env
        fs).1.error_details =
      groupErrors env (groupFound tokens (scanPhase dirResults stop).2) ∧
    (searchAndCopy true tokens dirResults stop false env fs).1.errors =
      (groupErrors env
        (groupFound tokens (scanPhase dirResults stop).2)).length := by
  obtain ⟨c1, c2, c3, _, _, _, _, _⟩ := copyToken_spec env t l st fs
  have hunf : searchAndCopy true tokens dirResults stop false env fs =
      copyGroups env false
        (groupFound tokens (scanPhase dirResults stop).2)
        { initStats with searched := (scanPhase dirResults stop).1 } fs :=
    rfl
  obtain ⟨g1, g2, g3, _, _, _, _, _⟩ := copyGroups_spec env
    (groupFound tokens (scanPhase dirResults stop).2)
    { initStats with searched := (scanPhase dirResults stop).1 } fs
  refine ⟨c2, c3, ?_, ?_, ?_⟩
  · rw [c1, c2]
    have := filter_fail_split env l
    omega
  · rw [hunf, g3]
    simp [initStats]
  · rw [hunf, g2]
    simp [initStats]

/-- Witness for C6: a failing and a succeeding copy in one token batch. -/
theorem copy_failures_counted_inst :
    (copyToken envFail false "100045" [(0, fileBad), (1, fileA)] initStats
        (fun _ => none)).1.errors =
      initStats.errors + ([(0, fileBad), (1, fileA)].filter fun p =>
        (envFail.fail p.2 (destFileName p.2 p.1)).isSome).length :=
  (copy_failures_counted_batch_continues envFail "100045"
    [(0, fileBad), (1, fileA)] initStats (fun _ => none) [] []
    (fun _ => false)).1

/-- C7: cancellation is polled between completed worker tasks in the
scan phase (each task is an atomic unit of the embedding) and between
files in the copy phase; a flag that turns true once `k` futures are
processed stops the scan with `searched = min k total` while the results
already collected are kept — cancelling after 1 of 10 directories yields
`searched = 1` — and with the flag raised the copy phase performs no
copy and raises no error, yet the returned statistics object is still
complete: `found` and `not_found` are filled from the collected
results and the filesystem is untouched. -/
theorem cancellation_keeps_partial_results
    (dirResults : List (List (String × SrcFile))) (k : Nat)
    (r : List (String × SrcFile)) (env : CopyEnv)
    (gs : List (String × List SrcFile)) (st : SearchStats) (fs : Fs) :
    scanPhase dirResults (fun m => decide (k ≤ m)) =
      (min k dirResults.length, (dirResults.take k).flatten) ∧
    (scanPhase (List.replicate 10 r) (fun m => decide (1 ≤ m))).1 = 1 ∧
    (copyGroups env true gs st fs).1.copied = st.copied ∧
    (copyGroups env true gs st fs).1.errors = st.errors ∧
    (copyGroups env true gs st fs).2 = fs ∧
    (copyGroups env true gs st fs).1.found =
      st.found + (gs.map fun g => g.2.length).sum ∧
    (copyGroups env true gs st fs).1.not_found =
      st.not_found ++ (gs.filter fun g => g.2.isEmpty).map
        (fun g => g.1) := by
  refine ⟨?_, ?_, (copyGroups_stop_spec env gs st fs).1,
    (copyGroups_stop_spec env gs st fs).2.1,
    (copyGroups_stop_spec env gs st fs).2.2.2.2.2.2,
    (copyGroups_stop_spec env gs st fs).2.2.2.1,
    (copyGroups_stop_spec env gs st fs).2.2.2.2.1⟩
  · unfold scanPhase
    rw [scanPhaseAux_threshold k dirResults 0 [] (Nat.zero_le k)]
    simp
  · unfold scanPhase
    rw [scanPhaseAux_threshold 1 (List.replicate 10 r) 0 []
      (Nat.zero_le 1)]
    simp

/-- Witness for C7: ten directories, cancellation after the first. -/
theorem cancellation_searched_one_inst :
    (scanPhase (List.replicate 10 [("100045", fileA)])
      (fun m => decide (1 ≤ m))).1 = 1 :=
  (cancellation_keeps_partial_results [] 0 [("100045", fileA)] envOk []
    initStats (fun _ => none)).2.1

/-- A successful rename-candidate search always returns a free path. -/
theorem getUniquePathAux_ok_free (ex : String → Bool)
    (parent stem suffix : String) :
    ∀ (fuel counter : Nat) (p : String),
      getUniquePathAux ex parent stem suffix counter fuel = Except.ok p →
      ex p = false := by
  intro fuel
  induction fuel with
  | zero =>
    intro counter p h
    exact absurd h (by simp [getUniquePathAux])
  | succ fuel ih =>
    intro counter p h
    unfold getUniquePathAux at h
    split at h
    · exact ih (counter + 1) p h
    · rename_i hex
      simp only [Except.ok.injEq] at h
      subst h
      cases hv : ex (uniqueCand parent stem suffix counter)
      · rfl
      · exact absurd hv hex

/-- See `getUniquePathAux_ok_free`. -/
theorem getUniquePath_ok_free (ex : String → Bool)
    (parent stem suffix p : String)
    (h : getUniquePath ex parent stem suffix = Except.ok p) :
    ex p = false := by
  unfold getUniquePath at h
  split at h
  · exact getUniquePathAux_ok_free ex parent stem suffix 1000 1 p h
  · rename_i hex
    simp only [Except.ok.injEq] at h
    subst h
    cases hv : ex (parent ++ stem ++ suffix)
    · rfl
    · exact absurd hv hex

/-- The candidate loop returns the first free candidate at or after its
starting counter, when that candidate lies within the remaining fuel. -/
theorem getUniquePathAux_first (ex : String → Bool)
    (parent stem suffix : String) (n : Nat) :
    ∀ (fuel counter : Nat), counter ≤ n → n < counter + fuel →
      ex (uniqueCand parent stem suffix n) = false →
      (∀ m, counter ≤ m → m < n →
        ex (uniqueCand parent stem suffix m) = true) →
      getUniquePathAux ex parent stem suffix counter fuel =
        Except.ok (uniqueCand parent stem suffix n) := by
  intro fuel
  induction fuel with
  | zero =>
    intro counter h1 h2 _ _
    omega
  | succ fuel ih =>
    intro counter h1 h2 hfree hprev
    unfold getUniquePathAux
    by_cases hc : counter = n
    · subst hc
      rw [hfree]
      simp
    · have hlt : counter < n := Nat.lt_of_le_of_ne h1 hc
      have hcur : ex (uniqueCand parent stem suffix counter) = true :=
        hprev counter (Nat.le_refl _) hlt
      rw [hcur]
      simp only [if_true]
      exact ih (counter + 1) hlt (by omega) hfree
        (fun m hm1 hm2 => hprev m (by omega) hm2)

/-- When every candidate within the fuel exists, the loop raises. -/
theorem getUniquePathAux_exhaust (ex : String → Bool)
    (parent stem suffix : String) :
    ∀ (fuel counter : Nat),
      (∀ m, counter ≤ m → m < counter + fuel →
        ex (uniqueCand parent stem suffix m) = true) →
      getUniquePathAux ex parent stem suffix counter fuel =
        Except.error "No se pudo generar nombre único" := by
  intro fuel
  induction fuel with
  | zero => intro counter _; rfl
  | succ fuel ih =>
    intro counter h
    unfold getUniquePathAux
    have hcur : ex (uniqueCand parent stem suffix counter) = true :=
      h counter (Nat.le_refl _) (by omega)
    rw [hcur]
    simp only [if_true]
    exact ih (counter + 1) (fun m hm1 hm2 => h m (by omega) (by omega))

/-- C8: under policy `comparar`, when the destination exists the
resolver hashes the contents of source and destination; equal hashes
behave as skip (`None` is returned, nothing is copied, the filesystem is
untouched), and different hashes behave exactly as the rename policy —
any returned path is fresh (not present in the filesystem) and distinct
from the occupied destination, so after the caller's move both files
exist. -/
theorem compare_policy_hash_skip_or_rename (md5 : String → String)
    (fs : Fs) (srcPath parent stem suffix sc dc : String)
    (hdest : fs (parent ++ stem ++ suffix) = some dc)
    (hsrc : fs srcPath = some sc) :
    (md5 sc = md5 dc →
      handleDuplicate md5 fs srcPath parent stem suffix "comparar" =
        Except.ok (none, fs)) ∧
    (md5 sc ≠ md5 dc →
      handleDuplicate md5 fs srcPath parent stem suffix "comparar" =
        handleDuplicate md5 fs srcPath parent stem suffix "renombrar" ∧
      ∀ p fs2,
        handleDuplicate md5 fs srcPath parent stem suffix "comparar" =
          Except.ok (some p, fs2) →
        fs2 = fs ∧ fs p = none ∧ p ≠ parent ++ stem ++ suffix) := by
  have hdN : (fs (parent ++ stem ++ suffix)).isNone = false := by
    rw [hdest]; rfl
  constructor
  · intro heq
    simp [handleDuplicate, hdN, hsrc, hdest, heq]
  · intro hne
    constructor
    · simp [handleDuplicate, hdN, hsrc, hdest, hne]
    · have hcmp : handleDuplicate md5 fs srcPath parent stem suffix
          "comparar" =
          (getUniquePath (fun q => (fs q).isSome) parent stem suffix).map
            (fun p => (some p, fs)) := by
        simp [handleDuplicate, hdN, hsrc, hdest, hne]
      intro p fs2 hres
      rw [hcmp] at hres
      cases hub : getUniquePath (fun q => (fs q).isSome) parent stem
        suffix with
      | error e =>
        rw [hub] at hres
        exact absurd hres (by simp [Except.map])
      | ok q =>
        rw [hub] at hres
        simp only [Except.map, Except.ok.injEq, Prod.mk.injEq,
          Option.some.injEq] at hres
        obtain ⟨hq, hfs⟩ := hres
        subst hq
        have hfree := getUniquePath_ok_free _ _ _ _ _ hub
        refine ⟨hfs.symm, ?_, ?_⟩
        · exact Option.not_isSome_iff_eq_none.mp (by simp [hfree])
        · intro hcontra
          rw [hcontra] at hfree
          rw [hdest] at hfree
          exact absurd hfree (by simp)

/-- Witness for C8: byte-different contents under the same logical name
are renamed to a fresh path while the original destination survives. -/
theorem compare_policy_hash_witness :
    (fsPair ("out/" ++ "doc" ++ ".pdf") = some "OLD") ∧
    (fsPair "in/doc.pdf" = some "NEW") ∧
    (handleDuplicate hashId fsPair "in/doc.pdf" "out/" "doc" ".pdf"
        "comparar" =
      handleDuplicate hashId fsPair "in/doc.pdf" "out/" "doc" ".pdf"
        "renombrar") ∧
    (fsPair "out/doc_1.pdf" = none ∧
      "out/doc_1.pdf" ≠ "out/" ++ "doc" ++ ".pdf") := by
  refine ⟨rfl, rfl, ?_, ?_⟩
  · exact ((compare_policy_hash_skip_or_rename hashId fsPair "in/doc.pdf"
      "out/" "doc" ".pdf" "NEW" "OLD" rfl rfl).2 (by decide)).1
  · obtain ⟨-, h2, h3⟩ := ((compare_policy_hash_skip_or_rename hashId
      fsPair "in/doc.pdf" "out/" "doc" ".pdf" "NEW" "OLD" rfl rfl).2
      (by decide)).2 "out/doc_1.pdf" fsPair rfl
    exact ⟨h2, h3⟩

/-- Each processed file is tallied exactly once, into exactly one of the
four outcome counters. -/
theorem processDirectoryAux_counts (md5 : String → String)
    (outParent errParent policy : String) :
    ∀ (files : List QRFile) (fs : Fs) (st : QRStats),
      (processDirectoryAux md5 outParent errParent policy (fun _ => false)
          files fs st).1.procesados = st.procesados + files.length ∧
      (processDirectoryAux md5 outParent errParent policy (fun _ => false)
          files fs st).1.exitosos +
        (processDirectoryAux md5 outParent errParent policy
          (fun _ => false) files fs st).1.sin_qr +
        (processDirectoryAux md5 outParent errParent policy
          (fun _ => false) files fs st).1.saltados +
        (processDirectoryAux md5 outParent errParent policy
          (fun _ => false) files fs st).1.fallidos =
      st.exitosos + st.sin_qr + st.saltados + st.fallidos +
        files.length := by
  intro files
  induction files with
  | nil =>
    intro fs st
    exact ⟨rfl, by simp [processDirectoryAux]⟩
  | cons f rest ih =>
    intro fs st
    have heq : processDirectoryAux md5 outParent errParent policy
        (fun _ => false) (f :: rest) fs st =
        processDirectoryAux md5 outParent errParent policy
          (fun _ => false) rest
          (processFile md5 fs f outParent errParent policy).2
          (tallyAction st
            (processFile md5 fs f outParent errParent policy).1) := by
      simp [processDirectoryAux]
    obtain ⟨h1, h2⟩ := ih (processFile md5 fs f outParent errParent
      policy).2 (tallyAction st
        (processFile md5 fs f outParent errParent policy).1)
    rw [heq]
    revert h1 h2
    generalize (processFile md5 fs f outParent errParent policy).1 = act
    intro h1 h2
    cases act <;>
      exact ⟨(by rw [h1]; simp only [tallyAction]
                 simp only [List.length_cons]; omega),
             (by rw [h2]; simp only [tallyAction]
                 simp only [List.length_cons]; omega)⟩

/-- `process_directory` is its per-file loop over the kept files: when
nothing is kept the loop itself already returns the zero statistics. -/
theorem processDirectory_eq_aux (md5 : String → String)
    (files : List QRFile) (outParent errParent policy : String)
    (stop : Nat → Bool) (fs : Fs) :
    processDirectory md5 files outParent errParent policy stop fs =
      processDirectoryAux md5 outParent errParent policy stop
        (files.filter fun f => supportedExts.contains (lowerStr f.ext))
        fs initQRStats := by
  simp only [processDirectory]
  split
  · rename_i h
    rw [List.isEmpty_iff.mp h]
    rfl
  · rfl

/-- C9: under the rename policy the resolver returns the first candidate
`stem_N` (`N = 1, 2, 3, …`) that does not already exist; the candidate
search is bounded by 1000 attempts and raises a `RuntimeError` past the
bound; `process_file` catches that error and turns it into a failed
per-file result with no filesystem change, and `process_directory`
tallies the failure (`fallidos`) and continues — every kept file of the
batch is processed and tallied into exactly one outcome counter. -/
theorem rename_first_free_bounded_batch_survives :
    (∀ (ex : String → Bool) (parent stem suffix : String) (n : Nat),
      1 ≤ n → n ≤ 1000 →
      ex (parent ++ stem ++ suffix) = true →
      ex (uniqueCand parent stem suffix n) = false →
      (∀ m, 1 ≤ m → m < n →
        ex (uniqueCand parent stem suffix m) = true) →
      getUniquePath ex parent stem suffix =
        Except.ok (uniqueCand parent stem suffix n)) ∧
    (∀ (ex : String → Bool) (parent stem suffix : String),
      ex (parent ++ stem ++ suffix) = true →
      (∀ m, 1 ≤ m → m ≤ 1000 →
        ex (uniqueCand parent stem suffix m) = true) →
      getUniquePath ex parent stem suffix =
        Except.error "No se pudo generar nombre único") ∧
    (∀ (md5 : String → String) (fs : Fs) (f : QRFile)
        (outParent errParent policy q e : String),
      f.qr = some q →
      supportedExts.contains (lowerStr f.ext) = true →
      handleDuplicate md5 fs f.path outParent (sanitizeFilename q)
        (lowerStr f.ext) policy = Except.error e →
      processFile md5 fs f outParent errParent policy =
        (FileAction.noAction, fs)) ∧
    (∀ (md5 : String → String) (files : List QRFile)
        (outParent errParent policy : String) (fs : Fs),
      (processDirectory md5 files outParent errParent policy
          (fun _ => false) fs).1.procesados =
        (files.filter fun f =>
          supportedExts.contains (lowerStr f.ext)).length ∧
      (processDirectory md5 files outParent errParent policy
          (fun _ => false) fs).1.exitosos +
        (processDirectory md5 files outParent errParent policy
          (fun _ => false) fs).1.sin_qr +
        (processDirectory md5 files outParent errParent policy
          (fun _ => false) fs).1.saltados +
        (processDirectory md5 files outParent errParent policy
          (fun _ => false) fs).1.fallidos =
      (processDirectory md5 files outParent errParent policy
          (fun _ => false) fs).1.procesados) := by
  refine ⟨?_, ?_, ?_, ?_⟩
  · intro ex parent stem suffix n h1 h2 hbase hfree hprev
    unfold getUniquePath
    rw [hbase]
    simp only [if_true]
    exact getUniquePathAux_first ex parent stem suffix n 1000 1 h1
      (by omega) hfree hprev
  · intro ex parent stem suffix hbase hall
    unfold getUniquePath
    rw [hbase]
    simp only [if_true]
    exact getUniquePathAux_exhaust ex parent stem suffix 1000 1
      (fun m hm1 hm2 => hall m hm1 (by omega))
  · intro md5 fs f outParent errParent policy q e hqr hext hdup
    simp [processFile, hqr, hext, hdup]
  · intro md5 files outParent errParent policy fs
    rw [processDirectory_eq_aux]
    obtain ⟨h1, h2⟩ := processDirectoryAux_counts md5 outParent
      errParent policy (files.filter fun f =>
        supportedExts.contains (lowerStr f.ext)) fs initQRStats
    refine ⟨?_, ?_⟩
    · rw [h1]
      simp only [initQRStats]
      try omega
    · rw [h1, h2]
      simp only [initQRStats]
      try omega

set_option maxRecDepth 8192 in
/-- Witness for C9: a first-free-candidate search, an exhausted search,
a caught exhaustion in `process_file`, and a completed batch. -/
theorem rename_bounded_witness :
    (exTwoTaken ("o/" ++ "t" ++ ".pdf") = true) ∧
    getUniquePath exTwoTaken "o/" "t" ".pdf" =
      Except.ok (uniqueCand "o/" "t" ".pdf" 2) ∧
    getUniquePath (fun _ => true) "o/" "t" ".pdf" =
      Except.error "No se pudo generar nombre único" ∧
    processFile hashId (fun _ => some "x") qrFileTok "out/" "err/"
        "renombrar" = (FileAction.noAction, fun _ => some "x") ∧
    (processDirectory hashId [qrFileTok] "out/" "err/" "renombrar"
        (fun _ => false) (fun _ => some "x")).1.procesados =
      ([qrFileTok].filter fun f =>
        supportedExts.contains (lowerStr f.ext)).length := by
  refine ⟨by decide, ?_, ?_, ?_, ?_⟩
  · exact rename_first_free_bounded_batch_survives.1 exTwoTaken "o/" "t"
      ".pdf" 2 (by decide) (by decide) (by decide) (by decide)
      (by
        intro m h1 h2
        have hm : m = 1 := by omega
        subst hm
        decide)
  · exact rename_first_free_bounded_batch_survives.2.1 (fun _ => true)
      "o/" "t" ".pdf" rfl (fun m _ _ => rfl)
  · exact rename_first_free_bounded_batch_survives.2.2.1 hashId
      (fun _ => some "x") qrFileTok "out/" "err/" "renombrar" "TOK"
      "No se pudo generar nombre único" rfl (by decide) rfl
  · exact (rename_first_free_bounded_batch_survives.2.2.2 hashId
      [qrFileTok] "out/" "err/" "renombrar" (fun _ => some "x")).1

end SGDI
